import Mathlib

/-!
Shallow embedding of the obsidian-image-uploader-api plugin core
(`main.ts`, with its settings tab `settings.ts`), together with theorems
settling the frozen claims about its specification.

The repository ships two revisions of the plugin main module.  The current
revision (the one `settings.ts` is the settings tab of) is the concurrent
batch pipeline: `uploadImagesConcurrently`, `uploadImage` with the
configuration guard, `isUrlBlacklisted`, `getDefaultWidth` driven by the
width settings.  The earlier revision additionally contains
`getValueByPath` (dot-path JSON extraction) and a sequential
`uploadAllImages`.  Definitions below embed the current revision; the
earlier revision's `getValueByPath` is embedded as well, since it is the
documented intent of the `jsonPath` setting.

JavaScript strings are modeled as Lean `String`s with explicit ASCII-level
re-implementations of the library functions the source uses
(`split`, `trim`, `toLowerCase`, `startsWith`, `replace`), so every
definition evaluates inside the kernel.  Unicode-specific behavior
(non-ASCII case mapping, exotic whitespace) is outside the model; every
string the plugin manipulates in the claims is ASCII apart from its
Chinese notice texts, which are only carried around as opaque data.
-/

/-- One split step of JavaScript `String.prototype.split` with a
single-character separator: accumulate characters until the separator,
emit the chunk, continue.  `"a:b".split(":") = ["a","b"]`,
`"".split(":") = [""]`, `"a:".split(":") = ["a",""]`. -/
def splitCharAux (sep : Char) : List Char → List Char → List (List Char)
  | [], acc => [acc.reverse]
  | c :: cs, acc =>
    if c = sep then acc.reverse :: splitCharAux sep cs []
    else splitCharAux sep cs (c :: acc)

/-- JavaScript `s.split(sep)` for a one-character separator `sep`. -/
def jsSplitOn (sep : Char) (s : String) : List String :=
  (splitCharAux sep s.data []).map fun l => ⟨l⟩

/-- JavaScript `s.toLowerCase()`, restricted to ASCII case mapping. -/
def jsToLower (s : String) : String :=
  ⟨s.data.map Char.toLower⟩

/-- Whitespace characters removed by JavaScript `String.prototype.trim`
(ASCII portion of the WHATWG whitespace class). -/
def isJsSpace (c : Char) : Bool :=
  c = ' ' || c = '\t' || c = '\n' || c = '\r'

/-- JavaScript `s.trim()` (ASCII whitespace model). -/
def jsTrim (s : String) : String :=
  ⟨((s.data.dropWhile isJsSpace).reverse.dropWhile isJsSpace).reverse⟩

/-- JavaScript `s.startsWith(p)`. -/
def jsStartsWith (s p : String) : Bool :=
  p.data.isPrefixOf s.data

/-- First occurrence of `pat` inside a character list: returns the part
strictly before the match and the part strictly after it.  `none` when
`pat` does not occur.  An empty pattern matches at position 0, as in
JavaScript `indexOf`. -/
def firstMatch (pat : List Char) : List Char → Option (List Char × List Char)
  | [] => if pat.isPrefixOf ([] : List Char) then some ([], []) else none
  | c :: cs =>
    if pat.isPrefixOf (c :: cs) then some ([], (c :: cs).drop pat.length)
    else (firstMatch pat cs).map fun p => (c :: p.1, p.2)

/-- The `GetSubstitution` step of JavaScript `String.prototype.replace`
with a string (non-regexp) pattern: in the replacement text, `$$` denotes
a dollar sign, `$&` the matched substring, `$` followed by a backquote the
text before the match, `$` followed by a quote the text after the match;
any other `$` is literal (a string pattern has no capture groups, so `$n`
stays literal).  `matched` is the pattern itself, `before`/`after` the
surrounding text. -/
def jsSubstitute (matched before after : List Char) : List Char → List Char
  | [] => []
  | c :: rest =>
    if c = '$' then
      match rest with
      | [] => ['$']
      | d :: rest2 =>
        if d = '$' then '$' :: jsSubstitute matched before after rest2
        else if d = '&' then matched ++ jsSubstitute matched before after rest2
        else if d = Char.ofNat 96 then before ++ jsSubstitute matched before after rest2
        else if d = Char.ofNat 39 then after ++ jsSubstitute matched before after rest2
        else '$' :: jsSubstitute matched before after (d :: rest2)
    else c :: jsSubstitute matched before after rest

/-- JavaScript `s.replace(pat, repl)` with string arguments: replaces the
first occurrence of `pat`, feeding `repl` through `jsSubstitute`; returns
`s` unchanged when `pat` does not occur. -/
def jsReplaceFirst (s pat repl : String) : String :=
  match firstMatch pat.data s.data with
  | none => s
  | some (before, after) =>
    ⟨before ++ jsSubstitute pat.data before after repl.data ++ after⟩

/-- Split a character list at the first occurrence of `c`: the part before
it and the (unsplit) remainder after it; `none` when `c` does not occur. -/
def breakFirst (c : Char) : List Char → Option (List Char × List Char)
  | [] => none
  | x :: xs =>
    if x = c then some ([], xs)
    else (breakFirst c xs).map fun p => (x :: p.1, p.2)

/-! ## JSON values and JavaScript property access -/

/-- A parsed JSON value (the result of `response.json()`). -/
inductive Json where
  | null
  | bool (b : Bool)
  | num (n : Int)
  | str (s : String)
  | arr (elems : List Json)
  | obj (fields : List (String × Json))

/-- First-key lookup in a JSON object's field list (JavaScript object keys
are unique, so first-match lookup models property access). -/
def fieldLookup (k : String) : List (String × Json) → Option Json
  | [] => none
  | (k0, v) :: rest => if k0 = k then some v else fieldLookup k rest

/-- JavaScript property access `j[k]` on a JSON value: field lookup on
objects, `undefined` (`none`) otherwise.  Array indexing and properties of
primitives (such as `length`) are outside the model; no claim touches
them. -/
def jsGetProp (j : Json) (k : String) : Option Json :=
  match j with
  | .obj fields => fieldLookup k fields
  | _ => none

/-- JavaScript truthiness of a value that may be `undefined` (`none`):
`undefined`, `null`, `false`, `0` and `""` are falsy, everything else
truthy. -/
def jsTruthy : Option Json → Bool
  | none => false
  | some .null => false
  | some (.bool b) => b
  | some (.num n) => n != 0
  | some (.str s) => s != ""
  | some (.arr _) => true
  | some (.obj _) => true

/-- JavaScript string coercion of a JSON value, as used when a non-string
upload result reaches `String.prototype.replace`.  Exact for strings (the
only case the claims exercise); numbers, booleans and `null` follow their
JavaScript rendering; the array/object renderings are placeholders, noted
here because no claim depends on them. -/
def jsToString : Json → String
  | .str s => s
  | .num n => toString n
  | .bool true => "true"
  | .bool false => "false"
  | .null => "null"
  | .arr _ => ""
  | .obj _ => "[object Object]"

/-- String coercion of a possibly-undefined value. -/
def jsStringOfVal : Option Json → String
  | none => "undefined"
  | some j => jsToString j

/-! ## Settings and the data model -/

/-- The plugin settings (`ImageUploaderSettings` in `main.ts`). -/
structure ImageUploaderSettings where
  apiUrl : String
  method : String
  jsonPath : String
  blacklistDomains : List String
  autoUploadOnPaste : Bool
  customHeaders : List String
  defaultWidthLarge : Nat
  defaultWidthMedium : Nat
  defaultWidthSmall : Nat
  enableAutoWidth : Bool

/-- `DEFAULT_SETTINGS` from `main.ts`. -/
def DEFAULT_SETTINGS : ImageUploaderSettings where
  apiUrl := "http://your-api.com/upload"
  method := "POST"
  jsonPath := "data.url"
  blacklistDomains := []
  autoUploadOnPaste := true
  customHeaders := []
  defaultWidthLarge := 800
  defaultWidthMedium := 600
  defaultWidthSmall := 400
  enableAutoWidth := true

/-- An error value thrown inside the pipeline.  `invalidUrl` is the
`TypeError` the ambient `new URL` constructor throws on unparsable input,
`typeError` the `TypeError` raised by reading a property of `undefined`
(its argument names the missing field), `error` a `new Error(msg)` thrown
by the plugin itself.  Host-defined message texts of the two `TypeError`
shapes are not modeled; the errors are kept as structured values. -/
inductive JsErr where
  | invalidUrl (input : String)
  | typeError (field : String)
  | error (msg : String)
deriving DecidableEq

/-- The mutable progress aggregate (`UploadProgress` in `main.ts`).
`errors` keeps the structured thrown values in push order. -/
structure UploadProgress where
  total : Nat
  current : Nat
  success : Nat
  failed : Nat
  skipped : Nat
  blacklisted : Nat
  errors : List (String × JsErr)
deriving DecidableEq

/-- One extracted image reference: the URL and the exact markdown
substring it came from. -/
structure ImageRef where
  url : String
  originalMark : String
deriving DecidableEq

/-- The per-item result pair `{originalMark, newMark}` returned by the
batch pipeline's item callback. -/
structure MarkPair where
  originalMark : String
  newMark : String
deriving DecidableEq

/-- The identity result pair for an item that leaves its markup alone. -/
def noopPair (r : ImageRef) : MarkPair :=
  { originalMark := r.originalMark, newMark := r.originalMark }

/-- A network request issued by the pipeline, recorded for the theorems
that assert no network access happens. -/
inductive NetReq where
  | fetchReq (url : String)
  | uploadReq (url method : String) (headers : List (String × String))
deriving DecidableEq

/-- An HTTP response to an upload request, as far as the code observes it:
status (from which `response.ok` is derived) and the parsed JSON body.
Bodies that fail to parse as JSON are outside the model; no claim
touches that path. -/
structure HttpResp where
  status : Nat
  json : Json

/-- `response.ok` of the Fetch API: status in the 200-299 range. -/
def HttpResp.ok (r : HttpResp) : Bool :=
  200 ≤ r.status && r.status < 300

/-- A response to a `requestUrl` image download: status and the
`content-type` header when present. -/
structure FetchResp where
  status : Nat
  contentType : Option String

/-- The ambient network, supplied by the host: a download oracle and an
upload oracle (url, method, headers to response).  Network-level
rejections (DNS failure and the like) are not modeled; a failing download
is represented by a non-200 status. -/
structure Env where
  fetchImage : String → FetchResp
  send : String → String → List (String × String) → HttpResp


/-! ## Policy filter -/

/-- The protocol strip `replace(/^https?:\/\//, '')` used by
`isUrlBlacklisted`: removes one leading `http://` or `https://`.  The
regular expression is applied to strings that were already lower-cased,
so a literal prefix match is exact. -/
def stripProtocol (s : String) : String :=
  if jsStartsWith s "http://" then ⟨s.data.drop 7⟩
  else if jsStartsWith s "https://" then ⟨s.data.drop 8⟩
  else s

/-- `isUrlBlacklisted` from `main.ts` (identical in both revisions):
lower-case the URL and each configured domain, trim the domain, strip an
optional protocol prefix from both, and report a match when the stripped
URL starts with the stripped domain.  The surrounding `try`/`catch`
returning `false` is dead in the model because none of these string
operations throw. -/
def isUrlBlacklisted (s : ImageUploaderSettings) (url : String) : Bool :=
  let urlLower := jsToLower url
  s.blacklistDomains.any fun domain =>
    let domainLower := jsTrim (jsToLower domain)
    let urlWithoutProtocol := stripProtocol urlLower
    let domainWithoutProtocol := stripProtocol domainLower
    jsStartsWith urlWithoutProtocol domainWithoutProtocol

/-- Host and port part of a URL remainder: everything up to the first
path, query or fragment delimiter. -/
def hostPortOf (rest : List Char) : List Char :=
  rest.takeWhile fun c => !(c = '/' || c = '?' || c = '#')

/-- Drop `suffix` from the end of `l` when it is there. -/
def dropSuffix (suffix l : List Char) : List Char :=
  if suffix.isSuffixOf l then l.take (l.length - suffix.length) else l

/-- Models the ambient WHATWG `new URL(u).origin` used by the
already-uploaded check: `none` models the `TypeError` thrown on
unparsable input.  The model covers absolute `http`/`https` URLs (any
letter case) with a nonempty host and an optional explicit port; the
scheme and host are lower-cased and a default port (`:80`, `:443`) is
elided, as the platform does.  Userinfo, percent-escaping, IDN and
non-http(s) schemes are outside the model. -/
def parseOrigin (u : String) : Option String :=
  let l := (jsToLower u).data
  if "http://".data.isPrefixOf l then
    let hp := hostPortOf (l.drop 7)
    if hp.isEmpty then none
    else some ⟨"http://".data ++ dropSuffix ":80".data hp⟩
  else if "https://".data.isPrefixOf l then
    let hp := hostPortOf (l.drop 8)
    if hp.isEmpty then none
    else some ⟨"https://".data ++ dropSuffix ":443".data hp⟩
  else none

/-! ## Uploader -/

/-- JavaScript object property assignment on an association-list model of
a string-keyed object: updating an existing key keeps its position,
a new key is appended. -/
def jsObjSet (k v : String) : List (String × String) → List (String × String)
  | [] => [(k, v)]
  | (k0, v0) :: rest =>
    if k0 = k then (k0, v) :: rest else (k0, v0) :: jsObjSet k v rest

/-- The reduce callback of the custom-header processing inside the
current `uploadImage` (`main.ts` lines 323-327): the header string is
split on every `:`, all parts trimmed, the first part taken as key and
the second as value (`const [key, value] = header.split(':').map(...)`),
and the pair is kept only when both are nonempty (a string with no `:`
has an undefined, hence falsy, value part).  Parts after the second are
discarded by the destructuring. -/
def uploadHeaderStep (acc : List (String × String)) (header : String) :
    List (String × String) :=
  match (jsSplitOn ':' header).map jsTrim with
  | key :: value :: _ =>
    if key ≠ "" ∧ value ≠ "" then jsObjSet key value acc else acc
  | _ => acc

/-- The custom-header reduce inside the current `uploadImage`
(`main.ts` lines 323-327), starting from the empty header object. -/
def buildUploadHeaders (customHeaders : List String) : List (String × String) :=
  customHeaders.foldl uploadHeaderStep []

/-- The result extraction `return result.data.url` of the current
`uploadImage` (`main.ts` lines 334-335): reading `.data` of the body,
then `.url` of that.  When `.data` is `undefined` or `null`, reading
`.url` of it throws a `TypeError`; otherwise the access yields the field
value, possibly `undefined`. -/
def v1ResultDataUrl (json : Json) : Except JsErr (Option Json) :=
  match jsGetProp json "data" with
  | none => .error (.typeError "data")
  | some .null => .error (.typeError "data")
  | some v => .ok (jsGetProp v "url")

/-- `getValueByPath` from the earlier revision of `main.ts` (lines
626-628): `path.split('.').reduce((acc, part) => acc && acc[part], obj)`.
A falsy accumulator short-circuits and is returned as is; otherwise the
next property is read (possibly yielding `undefined`). -/
def getValueByPath (obj : Json) (path : String) : Option Json :=
  (jsSplitOn '.' path).foldl
    (fun acc part => if jsTruthy acc then acc.bind (jsGetProp · part) else acc)
    (some obj)

/-- `uploadImage` of the current revision (`main.ts` lines 305-340),
up to the response: the configuration guard against the unmodified
default endpoint, the custom-header reduce, the request (recorded as a
`NetReq`; the multipart body with form field `image` carries the file and
is not otherwise observed), the `response.ok` check, and the
`result.data.url` extraction.  Returns the extracted value or the thrown
error, together with the requests issued.  The `catch` in the source only
logs and rethrows. -/
def uploadImage (s : ImageUploaderSettings)
    (send : String → String → List (String × String) → HttpResp) :
    Except JsErr (Option Json) × List NetReq :=
  if s.apiUrl = "http://your-api.com/upload" then
    (.error (.error "未配置API地址"), [])
  else
    let headers := buildUploadHeaders s.customHeaders
    let resp := send s.apiUrl s.method headers
    let req := NetReq.uploadReq s.apiUrl s.method headers
    if resp.ok then
      (v1ResultDataUrl resp.json, [req])
    else
      (.error (.error ("HTTP错误! 状态码: " ++ toString resp.status)), [req])

/-! ## Width classifier -/

/-- `getDefaultWidth` of the current revision (`main.ts` lines 343-358),
with the ambient image decode abstracted to its result: `none` when
decoding fails (`img.onerror`), otherwise the decoded pixel width.  The
thresholds 1600/1200/800 are hardcoded in the source; the three display
widths come from the settings. -/
def getDefaultWidth (s : ImageUploaderSettings) (decoded : Option Nat) :
    Option Nat :=
  match decoded with
  | none => none
  | some width =>
    if width > 1600 then some s.defaultWidthLarge
    else if width > 1200 then some s.defaultWidthMedium
    else if width > 800 then some s.defaultWidthSmall
    else some width

/-! ## Batch pipeline -/

/-- The fetch-then-upload tail of the per-item callback of
`uploadImagesConcurrently` (`main.ts` lines 163-203): download the image
(recording the request), fail the item on a non-200 status, otherwise
upload and either record a success with the rewritten markup or fail the
item (an upload that returns a falsy URL throws `上传返回的URL为空`).
Failures are absorbed by the per-item `catch` (`failed` counter plus an
`errors` entry); the `finally` block increments `current` on every path.
The filename and MIME derivation feeding the uploaded `File` object is
not modeled, since the upload request is recorded without its body. -/
def fetchUploadStep (s : ImageUploaderSettings) (env : Env)
    (p : UploadProgress) (r : ImageRef) :
    UploadProgress × MarkPair × List NetReq :=
  let resp := env.fetchImage r.url
  let reqs := [NetReq.fetchReq r.url]
  if resp.status ≠ 200 then
    let p1 := { p with failed := p.failed + 1,
                       errors := p.errors ++
                         [(r.url, JsErr.error ("下载失败: HTTP " ++ toString resp.status))] }
    let p2 := { p1 with current := p1.current + 1 }
    (p2, noopPair r, reqs)
  else
    match uploadImage s env.send with
    | (.error e, ureqs) =>
      let p1 := { p with failed := p.failed + 1, errors := p.errors ++ [(r.url, e)] }
      let p2 := { p1 with current := p1.current + 1 }
      (p2, noopPair r, reqs ++ ureqs)
    | (.ok v, ureqs) =>
      if jsTruthy v then
        let p1 := { p with success := p.success + 1 }
        let p2 := { p1 with current := p1.current + 1 }
        (p2, { originalMark := r.originalMark,
               newMark := jsReplaceFirst r.originalMark r.url (jsStringOfVal v) },
         reqs ++ ureqs)
      else
        let p1 := { p with failed := p.failed + 1,
                           errors := p.errors ++ [(r.url, JsErr.error "上传返回的URL为空")] }
        let p2 := { p1 with current := p1.current + 1 }
        (p2, noopPair r, reqs ++ ureqs)

/-- The per-item callback of `uploadImagesConcurrently` (`main.ts` lines
145-203).  Order of effects follows the source: the blacklist check first
(`blacklisted` and `current` incremented inline, then the `finally` block
increments `current` again on the way out of the early return); then the
already-uploaded check, whose `new URL(apiUrl)` throw is absorbed by the
per-item `catch` (`failed` counter, `errors` entry, one `finally`
increment of `current`); a matching origin prefix takes the skip branch
(again `current` twice: once inline, once in `finally`); otherwise the
fetch-and-upload tail runs. -/
def processItem (s : ImageUploaderSettings) (env : Env)
    (p : UploadProgress) (r : ImageRef) :
    UploadProgress × MarkPair × List NetReq :=
  if isUrlBlacklisted s r.url then
    let p1 := { p with blacklisted := p.blacklisted + 1, current := p.current + 1 }
    let p2 := { p1 with current := p1.current + 1 }
    (p2, noopPair r, [])
  else
    match parseOrigin s.apiUrl with
    | none =>
      let p1 := { p with failed := p.failed + 1,
                         errors := p.errors ++ [(r.url, JsErr.invalidUrl s.apiUrl)] }
      let p2 := { p1 with current := p1.current + 1 }
      (p2, noopPair r, [])
    | some origin =>
      if jsStartsWith r.url origin then
        let p1 := { p with skipped := p.skipped + 1, current := p.current + 1 }
        let p2 := { p1 with current := p1.current + 1 }
        (p2, noopPair r, [])
      else
        fetchUploadStep s env p r

/-- One batch of items, processed in array order.  The source launches
the batch's promises concurrently and awaits them with `Promise.all`;
every shared-state effect is a counter increment or an `errors` push, so
the in-order serialization is one faithful interleaving, and the counter
totals are the same under every interleaving. -/
def processBatch (s : ImageUploaderSettings) (env : Env) :
    UploadProgress → List ImageRef →
    UploadProgress × List MarkPair × List NetReq
  | p, [] => (p, [], [])
  | p, r :: rest =>
    let (p1, pair, reqs1) := processItem s env p r
    let (p2, pairs, reqs2) := processBatch s env p1 rest
    (p2, pair :: pairs, reqs1 ++ reqs2)

/-- The batch loop of `uploadImagesConcurrently` (`main.ts` lines
143-213): slice off up to `maxConcurrent` references, process them, apply
each result's `content.replace(originalMark, newMark)` in order, repeat.
The loop is driven by structural fuel; each iteration consumes at least
one reference, so fuel equal to the reference count (as supplied by
`uploadImagesConcurrently`) replays the source loop exactly.  A
`maxConcurrent` of zero would not terminate in the source; the model's
`maxConcurrent - 1` slicing makes it behave like one, and the source only
ever passes the default 3. -/
def runBatches (s : ImageUploaderSettings) (env : Env) (maxConcurrent : Nat) :
    Nat → List ImageRef → String × UploadProgress × List NetReq →
    String × UploadProgress × List NetReq
  | _, [], st => st
  | 0, _, st => st
  | fuel + 1, r :: rest, (content, p, reqs) =>
    let batch := r :: rest.take (maxConcurrent - 1)
    let remaining := rest.drop (maxConcurrent - 1)
    let (p1, results, newReqs) := processBatch s env p batch
    let content1 :=
      results.foldl (fun c pr => jsReplaceFirst c pr.originalMark pr.newMark) content
    runBatches s env maxConcurrent fuel remaining (content1, p1, reqs ++ newReqs)

/-- `uploadImagesConcurrently` (`main.ts` lines 126-216): initialize the
progress aggregate with `total` equal to the number of references and run
the batch loop over the editor content.  Returns the rewritten content,
the final progress, and every network request issued. -/
def uploadImagesConcurrently (s : ImageUploaderSettings) (env : Env)
    (content : String) (images : List ImageRef) (maxConcurrent : Nat) :
    String × UploadProgress × List NetReq :=
  let p0 : UploadProgress :=
    { total := images.length, current := 0, success := 0, failed := 0,
      skipped := 0, blacklisted := 0, errors := [] }
  runBatches s env maxConcurrent images.length images (content, p0, [])

/-! ## Definitions written from the claims' words (for comparison) -/

/-- Follows claim C6's words, for comparison with `buildUploadHeaders`:
each header string is split on the first `:` into a key and a value, both
trimmed; the header is discarded if the trimmed key or value is empty,
and otherwise the entire remainder after the first `:` becomes the header
value.  A string with no `:` has no value and is discarded. -/
def claimC6Headers (customHeaders : List String) : List (String × String) :=
  customHeaders.foldl
    (fun acc header =>
      match breakFirst ':' header.data with
      | none => acc
      | some (k, rest) =>
        let key := jsTrim ⟨k⟩
        let value := jsTrim ⟨rest⟩
        if key = "" ∨ value = "" then acc else jsObjSet key value acc)
    []

/-- One step of the corrected description of the header reduce actually
performed by `uploadImage`: the key is the part before the first `:` and
the value is the part between the first and the second `:` (anything
after a second `:` is dropped), both trimmed; the header is discarded
when it contains no `:` or when the trimmed key or trimmed value is
empty. -/
def amendedC6HeaderStep (acc : List (String × String)) (header : String) :
    List (String × String) :=
  match breakFirst ':' header.data with
  | none => acc
  | some (k, rest) =>
    let key := jsTrim ⟨k⟩
    let value := jsTrim ⟨rest.takeWhile (· ≠ ':')⟩
    if key = "" ∨ value = "" then acc else jsObjSet key value acc

/-- The corrected description of the whole header reduce: fold
`amendedC6HeaderStep` over the configured headers. -/
def amendedC6Headers (customHeaders : List String) : List (String × String) :=
  customHeaders.foldl amendedC6HeaderStep []

/-- Follows claim C7's words, for comparison with `processItem`: when URL
parsing fails during the already-uploaded check, the check degrades to
"not matched" and the reference's processing continues as if the check
had not matched, going on to the fetch-and-upload steps. -/
def claimC7Pipeline (s : ImageUploaderSettings) (env : Env)
    (p : UploadProgress) (r : ImageRef) :
    UploadProgress × MarkPair × List NetReq :=
  if isUrlBlacklisted s r.url then
    let p1 := { p with blacklisted := p.blacklisted + 1, current := p.current + 1 }
    let p2 := { p1 with current := p1.current + 1 }
    (p2, noopPair r, [])
  else
    match parseOrigin s.apiUrl with
    | none => fetchUploadStep s env p r
    | some origin =>
      if jsStartsWith r.url origin then
        let p1 := { p with skipped := p.skipped + 1, current := p.current + 1 }
        let p2 := { p1 with current := p1.current + 1 }
        (p2, noopPair r, [])
      else
        fetchUploadStep s env p r

/-- Follows claim C9's words, for comparison with the pipeline's markup
rewrite: the new markup is the original markup with its old-URL substring
replaced, verbatim, by the new URL. -/
def claimC9NewMark (originalMark url newUrl : String) : String :=
  match firstMatch url.data originalMark.data with
  | none => originalMark
  | some (before, after) => ⟨before ++ newUrl.data ++ after⟩

/-! ## Concrete fixtures for witnesses and counterexamples -/

/-- An environment on which every download fails and every upload is
rejected; used where the theorem at hand never reaches the network. -/
def envNoNet : Env where
  fetchImage := fun _ => { status := 404, contentType := none }
  send := fun _ _ _ => { status := 500, json := .null }

/-- An environment on which every download succeeds and every upload
returns `{"data": {"url": newUrl}}` with status 200. -/
def envOk (newUrl : String) : Env where
  fetchImage := fun _ => { status := 200, contentType := some "image/png" }
  send := fun _ _ _ =>
    { status := 200, json := .obj [("data", .obj [("url", .str newUrl)])] }

/-- A zeroed progress aggregate over one reference. -/
def pEmpty : UploadProgress :=
  { total := 1, current := 0, success := 0, failed := 0, skipped := 0,
    blacklisted := 0, errors := [] }

/-- Settings with a configured endpoint and a `jsonPath` pointing at a
top-level `url` field (claim C1's failing input). -/
def sJsonPathUrl : ImageUploaderSettings :=
  { DEFAULT_SETTINGS with apiUrl := "http://api.test/upload", jsonPath := "url" }

/-- A response body whose result URL sits at the top-level `url` field. -/
def jsonTopUrl : Json := .obj [("url", .str "https://cdn.test/i.png")]

/-- An environment whose upload endpoint answers with `jsonTopUrl`. -/
def envTopUrl : Env where
  fetchImage := fun _ => { status := 200, contentType := some "image/png" }
  send := fun _ _ _ => { status := 200, json := jsonTopUrl }

/-- Settings with a configured endpoint and `img.test` blacklisted. -/
def sBlackImg : ImageUploaderSettings :=
  { DEFAULT_SETTINGS with apiUrl := "http://api.test/upload",
                          blacklistDomains := ["img.test"] }

/-- A reference to an image hosted on the blacklisted `img.test`. -/
def refImgTest : ImageRef :=
  { url := "http://img.test/a.png", originalMark := "![](http://img.test/a.png)" }

/-- Settings whose API origin `http://api.test` is itself blacklisted
(claim C4's counterexample). -/
def sBlackApi : ImageUploaderSettings :=
  { DEFAULT_SETTINGS with apiUrl := "http://api.test/upload",
                          blacklistDomains := ["api.test"] }

/-- A reference already hosted on the API origin. -/
def refApiTest : ImageRef :=
  { url := "http://api.test/x.png", originalMark := "![](http://api.test/x.png)" }

/-- Settings with a configured endpoint and no blacklist. -/
def sApiTest : ImageUploaderSettings :=
  { DEFAULT_SETTINGS with apiUrl := "http://api.test/upload" }

/-- Settings whose API URL does not parse (claim C7's failing input). -/
def sBadApi : ImageUploaderSettings :=
  { DEFAULT_SETTINGS with apiUrl := "not a url" }

/-- Settings whose blacklist holds the entry `http://`, which strips to
the empty string (claim C10's input). -/
def sBlackAll : ImageUploaderSettings :=
  { DEFAULT_SETTINGS with apiUrl := "http://api.test/upload",
                          blacklistDomains := ["http://"] }

/-! ## Helper lemmas -/

/-- Every string starts with the empty string. -/
theorem jsStartsWith_empty (s : String) : jsStartsWith s "" = true := by
  unfold jsStartsWith
  have h : "".data = ([] : List Char) := by decide
  rw [h, List.isPrefixOf_iff_prefix]
  exact List.nil_prefix

/-- A replacement text without a dollar sign passes through the
substitution step verbatim. -/
theorem jsSubstitute_no_dollar (matched before after : List Char) :
    ∀ repl : List Char, '$' ∉ repl →
      jsSubstitute matched before after repl = repl := by
  intro repl
  induction repl with
  | nil => intro _; rfl
  | cons c rest ih =>
    intro h
    have hc : ¬ c = '$' := fun hc => h (hc ▸ List.mem_cons_self c rest)
    have h2 : '$' ∉ rest := fun hm => h (List.mem_cons_of_mem _ hm)
    rw [jsSubstitute.eq_def]
    simp [hc, ih h2]

/-- A successful `firstMatch` is a decomposition of its input. -/
theorem firstMatch_decomp (pat : List Char) :
    ∀ l before after, firstMatch pat l = some (before, after) →
      l = before ++ pat ++ after := by
  intro l
  induction l with
  | nil =>
    intro before after h
    rw [firstMatch] at h
    by_cases hp : pat.isPrefixOf ([] : List Char) = true
    · rw [if_pos hp] at h
      have hpat : pat = [] := by
        rw [List.isPrefixOf_iff_prefix] at hp
        exact List.prefix_nil.mp hp
      injection h with h'
      injection h' with hb ha
      subst hb ha hpat
      rfl
    · rw [if_neg hp] at h
      exact absurd h (by simp)
  | cons c cs ih =>
    intro before after h
    rw [firstMatch] at h
    by_cases hp : pat.isPrefixOf (c :: cs) = true
    · rw [if_pos hp] at h
      obtain ⟨t, ht⟩ := List.isPrefixOf_iff_prefix.mp hp
      injection h with h'
      injection h' with hb ha
      subst hb
      rw [← ha, ← ht, List.nil_append, List.drop_left]
    · rw [if_neg hp] at h
      cases hm : firstMatch pat cs with
      | none => rw [hm] at h; exact absurd h (by simp)
      | some q =>
        rw [hm] at h
        simp only [Option.map_some'] at h
        injection h with h'
        injection h' with hb ha
        have hcs := ih q.1 q.2 (by rw [hm])
        rw [← hb, ← ha, hcs]
        simp

/-- When the pattern occurs and the replacement holds no dollar sign,
`jsReplaceFirst` splices the replacement verbatim between the text before
and after the first occurrence. -/
theorem jsReplaceFirst_no_dollar (s pat repl : String) (before after : List Char)
    (hm : firstMatch pat.data s.data = some (before, after))
    (hd : '$' ∉ repl.data) :
    (jsReplaceFirst s pat repl).data = before ++ repl.data ++ after := by
  unfold jsReplaceFirst
  rw [hm]
  simp [jsSubstitute_no_dollar _ _ _ _ hd]

/-- `splitCharAux` characterized through the first separator occurrence:
no separator yields a single chunk, otherwise the text before the
separator is the first chunk and splitting restarts on the remainder. -/
theorem splitCharAux_breakFirst (sep : Char) :
    ∀ (l acc : List Char),
      splitCharAux sep l acc =
        match breakFirst sep l with
        | none => [acc.reverse ++ l]
        | some (k, rest) => (acc.reverse ++ k) :: splitCharAux sep rest [] := by
  intro l
  induction l with
  | nil => intro acc; simp [splitCharAux, breakFirst]
  | cons c cs ih =>
    intro acc
    by_cases hc : c = sep
    · rw [splitCharAux, if_pos hc, breakFirst.eq_def]
      simp only [if_pos hc]
      simp
    · rw [splitCharAux, if_neg hc, breakFirst.eq_def]
      simp only [if_neg hc]
      rw [ih (c :: acc)]
      cases hm : breakFirst sep cs with
      | none => simp [List.reverse_cons, List.append_assoc]
      | some q =>
        simp [List.reverse_cons, List.append_assoc]

/-- The first chunk produced by `splitCharAux` is the text up to the
first separator. -/
theorem splitCharAux_head (sep : Char) :
    ∀ (l acc : List Char), ∃ t,
      splitCharAux sep l acc =
        (acc.reverse ++ l.takeWhile (fun x => x ≠ sep)) :: t := by
  intro l
  induction l with
  | nil => intro acc; exact ⟨[], by simp [splitCharAux]⟩
  | cons c cs ih =>
    intro acc
    by_cases hc : c = sep
    · refine ⟨splitCharAux sep cs [], ?_⟩
      rw [splitCharAux, if_pos hc]
      simp [List.takeWhile_cons, hc]
    · obtain ⟨t, ht⟩ := ih (c :: acc)
      refine ⟨t, ?_⟩
      rw [splitCharAux, if_neg hc, ht]
      simp [List.takeWhile_cons, hc, List.reverse_cons, List.append_assoc]

/-- The source's header reduce step agrees with its first-colon
description. -/
theorem uploadHeaderStep_eq_amended (acc : List (String × String))
    (header : String) :
    uploadHeaderStep acc header = amendedC6HeaderStep acc header := by
  unfold uploadHeaderStep amendedC6HeaderStep jsSplitOn
  rw [splitCharAux_breakFirst]
  cases hm : breakFirst ':' header.data with
  | none => simp
  | some q =>
    obtain ⟨k, rest⟩ := q
    obtain ⟨t, ht⟩ := splitCharAux_head ':' rest []
    simp only [ht, List.nil_append, List.map_cons]
    by_cases hk : jsTrim ⟨k⟩ = ""
    · simp [hk]
    · by_cases hv : jsTrim ⟨rest.takeWhile (fun x => x ≠ ':')⟩ = ""
      · simp [hk, hv]
      · simp [hk, hv]

/-- A blacklist entry whose normalized form is empty makes the blacklist
check accept every URL. -/
theorem isUrlBlacklisted_of_empty_entry (s : ImageUploaderSettings)
    (d : String) (hd : d ∈ s.blacklistDomains)
    (hz : stripProtocol (jsTrim (jsToLower d)) = "") (url : String) :
    isUrlBlacklisted s url = true := by
  unfold isUrlBlacklisted
  rw [List.any_eq_true]
  refine ⟨d, hd, ?_⟩
  show jsStartsWith (stripProtocol (jsToLower url))
        (stripProtocol (jsTrim (jsToLower d))) = true
  rw [hz]
  exact jsStartsWith_empty _

/-- A batch of blacklisted references only bumps the `blacklisted`
counter (once per item) and the `current` counter (twice per item),
returns the identity mark pairs and issues no network request. -/
theorem processBatch_blacklisted (s : ImageUploaderSettings) (env : Env) :
    ∀ (l : List ImageRef) (p : UploadProgress),
      (∀ r ∈ l, isUrlBlacklisted s r.url = true) →
      processBatch s env p l =
        ({ p with blacklisted := p.blacklisted + l.length,
                  current := p.current + 2 * l.length },
         l.map noopPair, []) := by
  intro l
  induction l with
  | nil => intro p _; simp [processBatch]
  | cons r rest ih =>
    intro p h
    have hr := h r (List.mem_cons_self r rest)
    have hrest : ∀ x ∈ rest, isUrlBlacklisted s x.url = true :=
      fun x hx => h x (List.mem_cons_of_mem _ hx)
    rw [processBatch, processItem, if_pos hr]
    dsimp only
    rw [ih _ hrest]
    dsimp only
    simp only [List.map_cons, List.length_cons, List.append_nil, Prod.mk.injEq]
    refine ⟨?_, trivial⟩
    simp only [UploadProgress.mk.injEq, eq_self_iff_true, and_true, true_and]
    omega

/-- Running the batch loop over blacklisted references only accumulates
`blacklisted` (once per item) and `current` (twice per item) and issues
no network request, whatever the concurrency bound. -/
theorem runBatches_blacklisted (s : ImageUploaderSettings) (env : Env) (n : Nat) :
    ∀ (fuel : Nat) (l : List ImageRef) (c : String) (p : UploadProgress)
      (reqs : List NetReq),
      l.length ≤ fuel →
      (∀ r ∈ l, isUrlBlacklisted s r.url = true) →
      (runBatches s env n fuel l (c, p, reqs)).2.1 =
        { p with blacklisted := p.blacklisted + l.length,
                 current := p.current + 2 * l.length }
      ∧ (runBatches s env n fuel l (c, p, reqs)).2.2 = reqs := by
  intro fuel
  induction fuel with
  | zero =>
    intro l c p reqs hlen _
    have hl : l = [] := List.length_eq_zero.mp (Nat.le_zero.mp hlen)
    subst hl
    refine ⟨?_, rfl⟩
    show p = _
    cases p
    simp
  | succ fuel ih =>
    intro l c p reqs hlen hbl
    cases l with
    | nil =>
      refine ⟨?_, rfl⟩
      show p = _
      cases p
      simp
    | cons r rest =>
      rw [runBatches]
      have hbatch : ∀ x ∈ r :: rest.take (n - 1), isUrlBlacklisted s x.url = true := by
        intro x hx
        rcases List.mem_cons.mp hx with h1 | h2
        · exact h1 ▸ hbl r (List.mem_cons_self r rest)
        · exact hbl x (List.mem_cons_of_mem _ (List.take_subset _ _ h2))
      rw [processBatch_blacklisted s env _ _ hbatch]
      dsimp only
      have hrem : (rest.drop (n - 1)).length ≤ fuel := by
        rw [List.length_drop]
        have hlen' : rest.length + 1 ≤ fuel + 1 := by
          simpa using hlen
        omega
      have hremb : ∀ x ∈ rest.drop (n - 1), isUrlBlacklisted s x.url = true :=
        fun x hx => hbl x (List.mem_cons_of_mem _ (List.drop_subset _ _ hx))
      obtain ⟨h1, h2⟩ := ih (rest.drop (n - 1)) _ _ _ hrem hremb
      refine ⟨?_, by rw [h2]; simp⟩
      rw [h1]
      cases p
      simp only [UploadProgress.mk.injEq, eq_self_iff_true, and_true, true_and]
      simp only [List.length_cons, List.length_take, List.length_drop]
      omega

/-! ## Claim theorems -/

/-- Claim C1, settled as a code bug at the failing input
`jsonPath = "url"` with response body `{"url": "https://cdn.test/i.png"}`:
the current `uploadImage` never consults the configured `jsonPath` — it
evaluates the hardcoded `result.data.url`, so here it throws a
`TypeError` reading `url` of the undefined `data` field and the upload
fails, although the configured path names an existing result field.  The
dot-path walk the claim (and the `jsonPath` setting's own description)
describes is `getValueByPath` from the earlier revision, which extracts
the URL from this very response. -/
theorem c1_jsonpath_hardcoded :
    uploadImage sJsonPathUrl envTopUrl.send =
      (Except.error (JsErr.typeError "data"),
       [NetReq.uploadReq "http://api.test/upload" "POST" []])
    ∧ getValueByPath jsonTopUrl sJsonPathUrl.jsonPath =
        some (Json.str "https://cdn.test/i.png") :=
  ⟨rfl, rfl⟩

/-- Claim C2, settled as a code bug: processing the one blacklisted
reference of a one-image batch leaves the progress aggregate at
`current = 2` against `total = 1`, because the blacklist (and skip)
branches increment `current` inline and the `finally` block then
increments it again.  So after an item completes, `current` can both
differ from `success + failed + skipped + blacklisted` and exceed
`total`, contradicting the claimed invariant. -/
theorem c2_progress_current_double :
    (uploadImagesConcurrently sBlackImg envNoNet "![](http://img.test/a.png)"
        [refImgTest] 3).2.1 =
      { total := 1, current := 2, success := 0, failed := 0, skipped := 0,
        blacklisted := 1, errors := [] }
    ∧ (uploadImagesConcurrently sBlackImg envNoNet "![](http://img.test/a.png)"
        [refImgTest] 3).2.1.total <
      (uploadImagesConcurrently sBlackImg envNoNet "![](http://img.test/a.png)"
        [refImgTest] 3).2.1.current
    ∧ (uploadImagesConcurrently sBlackImg envNoNet "![](http://img.test/a.png)"
        [refImgTest] 3).2.1.current ≠
      (uploadImagesConcurrently sBlackImg envNoNet "![](http://img.test/a.png)"
          [refImgTest] 3).2.1.success +
      (uploadImagesConcurrently sBlackImg envNoNet "![](http://img.test/a.png)"
          [refImgTest] 3).2.1.failed +
      (uploadImagesConcurrently sBlackImg envNoNet "![](http://img.test/a.png)"
          [refImgTest] 3).2.1.skipped +
      (uploadImagesConcurrently sBlackImg envNoNet "![](http://img.test/a.png)"
          [refImgTest] 3).2.1.blacklisted :=
  ⟨by decide, by decide, by decide⟩

/-- Claim C5, confirmed: when the configured endpoint still equals the
default placeholder, `uploadImage` fails at once with the distinct
not-configured error `未配置API地址` and issues no network request. -/
theorem c5_placeholder_guard (s : ImageUploaderSettings)
    (send : String → String → List (String × String) → HttpResp)
    (h : s.apiUrl = "http://your-api.com/upload") :
    uploadImage s send = (Except.error (JsErr.error "未配置API地址"), []) := by
  unfold uploadImage
  rw [h, if_pos rfl]

/-- Witness for C5: the default settings keep the placeholder endpoint
and the guard fires on them. -/
theorem c5_placeholder_guard_witness :
    DEFAULT_SETTINGS.apiUrl = "http://your-api.com/upload"
    ∧ uploadImage DEFAULT_SETTINGS envNoNet.send =
        (Except.error (JsErr.error "未配置API地址"), []) :=
  ⟨rfl, c5_placeholder_guard DEFAULT_SETTINGS envNoNet.send rfl⟩

/-- Claim C8, confirmed: on the default display widths 800/600/400, the
width classifier maps a decoded width over 1600 to 800, over 1200 to
600, over 800 to 400 and anything else to itself, and a failed decode to
no hint at all. -/
theorem c8_width_classifier :
    (∀ w : Nat,
      getDefaultWidth DEFAULT_SETTINGS (some w) =
        some (if w > 1600 then 800
              else if w > 1200 then 600
              else if w > 800 then 400
              else w))
    ∧ getDefaultWidth DEFAULT_SETTINGS none = none := by
  refine ⟨fun w => ?_, rfl⟩
  unfold getDefaultWidth DEFAULT_SETTINGS
  dsimp only
  split_ifs <;> rfl

/-- Claim C3, confirmed: a reference whose URL, lower-cased and stripped
of an optional protocol prefix, starts with some blacklist entry
normalized the same way (the entry also being trimmed) is classified
Blacklisted: only the `blacklisted` counter moves (`current` moves twice,
see C2), the returned markup equals the original, and no network request
is made. -/
theorem c3_blacklist_noop (s : ImageUploaderSettings) (env : Env)
    (p : UploadProgress) (r : ImageRef)
    (h : ∃ d ∈ s.blacklistDomains,
      jsStartsWith (stripProtocol (jsToLower r.url))
        (stripProtocol (jsTrim (jsToLower d))) = true) :
    processItem s env p r =
      ({ p with blacklisted := p.blacklisted + 1, current := p.current + 1 + 1 },
       noopPair r, []) := by
  have hb : isUrlBlacklisted s r.url = true := by
    unfold isUrlBlacklisted
    rw [List.any_eq_true]
    obtain ⟨d, hd, hsw⟩ := h
    exact ⟨d, hd, hsw⟩
  rw [processItem, if_pos hb]

/-- Witness for C3: `img.test` is blacklisted and a reference hosted
there passes through untouched. -/
theorem c3_blacklist_noop_witness :
    (∃ d ∈ sBlackImg.blacklistDomains,
      jsStartsWith (stripProtocol (jsToLower refImgTest.url))
        (stripProtocol (jsTrim (jsToLower d))) = true)
    ∧ processItem sBlackImg envNoNet pEmpty refImgTest =
        ({ pEmpty with blacklisted := pEmpty.blacklisted + 1,
                       current := pEmpty.current + 1 + 1 },
         noopPair refImgTest, []) :=
  ⟨by decide, c3_blacklist_noop sBlackImg envNoNet pEmpty refImgTest (by decide)⟩

/-- Counterexample to claim C4 as stated: a reference whose URL starts
with the configured API origin but whose host is also blacklisted is
classified Blacklisted, not Skipped, because the blacklist check runs
first. -/
theorem c4_counterexample :
    parseOrigin sBlackApi.apiUrl = some "http://api.test"
    ∧ jsStartsWith refApiTest.url "http://api.test" = true
    ∧ (processItem sBlackApi envNoNet pEmpty refApiTest).1.skipped = 0
    ∧ (processItem sBlackApi envNoNet pEmpty refApiTest).1.blacklisted = 1 :=
  ⟨by decide, by decide, by decide, by decide⟩

/-- Claim C4 as amended: a reference that is not blacklisted and whose
URL starts with the origin of the configured API URL is classified
Skipped, with the returned markup equal to the original and no network
request. -/
theorem c4_amended_skip (s : ImageUploaderSettings) (env : Env)
    (p : UploadProgress) (r : ImageRef) (origin : String)
    (hbl : isUrlBlacklisted s r.url = false)
    (ho : parseOrigin s.apiUrl = some origin)
    (hsw : jsStartsWith r.url origin = true) :
    processItem s env p r =
      ({ p with skipped := p.skipped + 1, current := p.current + 1 + 1 },
       noopPair r, []) := by
  rw [processItem, if_neg (by simp [hbl]), ho]
  dsimp only
  rw [if_pos hsw]

/-- Witness for C4's amended theorem: with no blacklist configured, a
reference already hosted on the API origin is skipped untouched. -/
theorem c4_amended_skip_witness :
    isUrlBlacklisted sApiTest refApiTest.url = false
    ∧ parseOrigin sApiTest.apiUrl = some "http://api.test"
    ∧ jsStartsWith refApiTest.url "http://api.test" = true
    ∧ processItem sApiTest envNoNet pEmpty refApiTest =
        ({ pEmpty with skipped := pEmpty.skipped + 1,
                       current := pEmpty.current + 1 + 1 },
         noopPair refApiTest, []) :=
  ⟨by decide, by decide, by decide,
   c4_amended_skip sApiTest envNoNet pEmpty refApiTest "http://api.test"
     (by decide) (by decide) (by decide)⟩

/-- Counterexample to claim C6 as stated: for the header string
`Authorization:Bearer x:y`, the code keeps only the segment between the
first and second `:` as the value (`Bearer x`), while the claim's
split-at-first-colon reading predicts the entire remainder
(`Bearer x:y`). -/
theorem c6_counterexample :
    buildUploadHeaders ["Authorization:Bearer x:y"] = [("Authorization", "Bearer x")]
    ∧ claimC6Headers ["Authorization:Bearer x:y"] = [("Authorization", "Bearer x:y")]
    ∧ buildUploadHeaders ["Authorization:Bearer x:y"] ≠
        claimC6Headers ["Authorization:Bearer x:y"] :=
  ⟨by decide, by decide, by decide⟩

/-- Claim C6 as amended: every configured header string is split at the
first `:`; the part before it, trimmed, is the key, and the part between
the first and the second `:` (not the entire remainder), trimmed, is the
value; the header is discarded when it has no `:` or when the trimmed
key or trimmed value is empty. -/
theorem c6_amended_headers (customHeaders : List String) :
    buildUploadHeaders customHeaders = amendedC6Headers customHeaders := by
  unfold buildUploadHeaders amendedC6Headers
  suffices h : ∀ acc, customHeaders.foldl uploadHeaderStep acc
      = customHeaders.foldl amendedC6HeaderStep acc from h []
  induction customHeaders with
  | nil => intro acc; rfl
  | cons hd tl ih =>
    intro acc
    simp only [List.foldl_cons, uploadHeaderStep_eq_amended, ih]

/-- Counterexample to claim C7 as stated: with the unparsable endpoint
`not a url` and a network on which download and upload would both
succeed, the pipeline does not behave as if the already-uploaded check
had not matched (`claimC7Pipeline`, which would fetch and succeed);
instead the thrown parse error is caught by the per-item handler, the
item is counted failed, and no request is issued. -/
theorem c7_counterexample :
    parseOrigin sBadApi.apiUrl = none
    ∧ processItem sBadApi (envOk "http://api.test/new.png") pEmpty refImgTest ≠
        claimC7Pipeline sBadApi (envOk "http://api.test/new.png") pEmpty refImgTest
    ∧ (processItem sBadApi (envOk "http://api.test/new.png") pEmpty refImgTest).1.failed = 1
    ∧ (processItem sBadApi (envOk "http://api.test/new.png") pEmpty refImgTest).2.2 = []
    ∧ (claimC7Pipeline sBadApi (envOk "http://api.test/new.png") pEmpty refImgTest).1.success = 1 :=
  ⟨by decide, by decide, by decide, by decide, by decide⟩

/-- Claim C7 as amended: when URL parsing fails during the
already-uploaded check of a non-blacklisted reference, the pipeline does
not crash and the reference is not classified Skipped; the per-item
handler instead classifies it Failed, recording the parse error, and no
fetch or upload is performed for that reference (sibling references are
unaffected, each item's counters being its own). -/
theorem c7_amended_parse_failure (s : ImageUploaderSettings) (env : Env)
    (p : UploadProgress) (r : ImageRef)
    (hbl : isUrlBlacklisted s r.url = false)
    (ho : parseOrigin s.apiUrl = none) :
    processItem s env p r =
      ({ p with failed := p.failed + 1, current := p.current + 1,
                errors := p.errors ++ [(r.url, JsErr.invalidUrl s.apiUrl)] },
       noopPair r, []) := by
  rw [processItem, if_neg (by simp [hbl]), ho]

/-- Witness for C7's amended theorem at the unparsable endpoint. -/
theorem c7_amended_parse_failure_witness :
    isUrlBlacklisted sBadApi refImgTest.url = false
    ∧ parseOrigin sBadApi.apiUrl = none
    ∧ processItem sBadApi envNoNet pEmpty refImgTest =
        ({ pEmpty with failed := pEmpty.failed + 1,
                       current := pEmpty.current + 1,
                       errors := pEmpty.errors ++
                         [(refImgTest.url, JsErr.invalidUrl sBadApi.apiUrl)] },
         noopPair refImgTest, []) :=
  ⟨by decide, by decide,
   c7_amended_parse_failure sBadApi envNoNet pEmpty refImgTest
     (by decide) (by decide)⟩

/-- Counterexample to claim C9 as stated: when the upload returns the
URL `$&`, the markup rewrite goes through JavaScript `replace`, whose
replacement-pattern handling expands `$&` to the matched old URL — the
outcome's new markup equals the original markup and does not contain the
new URL, while the claim's verbatim-splice reading (`claimC9NewMark`)
predicts `![]($&)`. -/
theorem c9_counterexample :
    (processItem sApiTest (envOk "$&") pEmpty refImgTest).1.success = 1
    ∧ (processItem sApiTest (envOk "$&") pEmpty refImgTest).2.1.newMark =
        "![](http://img.test/a.png)"
    ∧ claimC9NewMark refImgTest.originalMark refImgTest.url "$&" = "![]($&)"
    ∧ (processItem sApiTest (envOk "$&") pEmpty refImgTest).2.1.newMark ≠
        claimC9NewMark refImgTest.originalMark refImgTest.url "$&" :=
  ⟨by decide, by decide, by decide, by decide⟩

/-- Claim C9 as amended: for a successfully uploaded reference, the
outcome's new markup is the original markup with its first old-URL
occurrence replaced through JavaScript `replace` (replacement-pattern
escapes interpreted); whenever the uploaded URL contains no `$`, this is
exactly the old URL occurrence swapped for the new URL verbatim with
every other character preserved. -/
theorem c9_amended_replace (s : ImageUploaderSettings) (env : Env)
    (p : UploadProgress) (r : ImageRef) (origin : String) (v : Option Json)
    (ureqs : List NetReq) (before after : List Char)
    (hbl : isUrlBlacklisted s r.url = false)
    (ho : parseOrigin s.apiUrl = some origin)
    (hsw : jsStartsWith r.url origin = false)
    (hf : (env.fetchImage r.url).status = 200)
    (hu : uploadImage s env.send = (Except.ok v, ureqs))
    (ht : jsTruthy v = true)
    (hocc : firstMatch r.url.data r.originalMark.data = some (before, after)) :
    processItem s env p r =
      ({ p with success := p.success + 1, current := p.current + 1 },
       { originalMark := r.originalMark,
         newMark := jsReplaceFirst r.originalMark r.url (jsStringOfVal v) },
       NetReq.fetchReq r.url :: ureqs)
    ∧ r.originalMark.data = before ++ r.url.data ++ after
    ∧ ('$' ∉ (jsStringOfVal v).data →
        (jsReplaceFirst r.originalMark r.url (jsStringOfVal v)).data =
          before ++ (jsStringOfVal v).data ++ after) := by
  refine ⟨?_, firstMatch_decomp _ _ _ _ hocc,
          fun hd => jsReplaceFirst_no_dollar _ _ _ _ _ hocc hd⟩
  rw [processItem, if_neg (by simp [hbl]), ho]
  dsimp only
  rw [if_neg (by simp [hsw])]
  unfold fetchUploadStep
  dsimp only
  rw [hf, if_neg (by simp), hu]
  dsimp only
  rw [if_pos ht]
  simp

/-- Witness for C9's amended theorem: a full successful pipeline run on
one reference, the uploaded URL containing no `$`. -/
theorem c9_amended_replace_witness :
    isUrlBlacklisted sApiTest refImgTest.url = false
    ∧ uploadImage sApiTest (envOk "http://api.test/new.png").send =
        (Except.ok (some (Json.str "http://api.test/new.png")),
         [NetReq.uploadReq "http://api.test/upload" "POST" []])
    ∧ firstMatch refImgTest.url.data refImgTest.originalMark.data =
        some ("![](".data, ")".data)
    ∧ processItem sApiTest (envOk "http://api.test/new.png") pEmpty refImgTest =
        ({ pEmpty with success := pEmpty.success + 1,
                       current := pEmpty.current + 1 },
         { originalMark := refImgTest.originalMark,
           newMark := jsReplaceFirst refImgTest.originalMark refImgTest.url
             (jsStringOfVal (some (Json.str "http://api.test/new.png"))) },
         NetReq.fetchReq refImgTest.url ::
           [NetReq.uploadReq "http://api.test/upload" "POST" []])
    ∧ (jsReplaceFirst refImgTest.originalMark refImgTest.url
         (jsStringOfVal (some (Json.str "http://api.test/new.png")))).data =
        "![](".data ++ (jsStringOfVal (some (Json.str "http://api.test/new.png"))).data
          ++ ")".data := by
  have h := c9_amended_replace sApiTest (envOk "http://api.test/new.png")
    pEmpty refImgTest "http://api.test"
    (some (Json.str "http://api.test/new.png"))
    [NetReq.uploadReq "http://api.test/upload" "POST" []]
    "![](".data ")".data
    (by decide) (by decide) (by decide) rfl rfl (by decide) (by decide)
  exact ⟨by decide, rfl, by decide, h.1, h.2.2 (by decide)⟩

/-- Claim C10, confirmed: a blacklist entry that trims, lower-cases and
protocol-strips to the empty string (such as `http://`) makes
`isUrlBlacklisted` accept every URL, so a whole batch run classifies
every reference Blacklisted — the `blacklisted` count equals the number
of references, no other outcome counter moves, and no network request is
issued. -/
theorem c10_empty_entry_blacklists_all (s : ImageUploaderSettings)
    (d : String) (hd : d ∈ s.blacklistDomains)
    (hz : stripProtocol (jsTrim (jsToLower d)) = "") :
    (∀ url, isUrlBlacklisted s url = true)
    ∧ ∀ (env : Env) (content : String) (images : List ImageRef) (n : Nat),
        (uploadImagesConcurrently s env content images n).2.1.blacklisted
            = images.length
        ∧ (uploadImagesConcurrently s env content images n).2.1.success = 0
        ∧ (uploadImagesConcurrently s env content images n).2.1.failed = 0
        ∧ (uploadImagesConcurrently s env content images n).2.1.skipped = 0
        ∧ (uploadImagesConcurrently s env content images n).2.2 = [] := by
  have hall : ∀ url, isUrlBlacklisted s url = true :=
    isUrlBlacklisted_of_empty_entry s d hd hz
  refine ⟨hall, fun env content images n => ?_⟩
  unfold uploadImagesConcurrently
  obtain ⟨h1, h2⟩ := runBatches_blacklisted s env n images.length images content
    { total := images.length, current := 0, success := 0, failed := 0,
      skipped := 0, blacklisted := 0, errors := [] } [] le_rfl
    (fun r _ => hall r.url)
  refine ⟨?_, ?_, ?_, ?_, h2⟩ <;> simp [h1]

/-- Witness for C10: the entry `http://` blacklists everything and a
one-image batch ends fully blacklisted with no request issued. -/
theorem c10_empty_entry_blacklists_all_witness :
    ("http://" ∈ sBlackAll.blacklistDomains)
    ∧ stripProtocol (jsTrim (jsToLower "http://")) = ""
    ∧ isUrlBlacklisted sBlackAll "https://anywhere.example/pic.png" = true
    ∧ (uploadImagesConcurrently sBlackAll envNoNet "![](x)" [refImgTest] 3).2.1.blacklisted = 1
    ∧ (uploadImagesConcurrently sBlackAll envNoNet "![](x)" [refImgTest] 3).2.1.success = 0
    ∧ (uploadImagesConcurrently sBlackAll envNoNet "![](x)" [refImgTest] 3).2.2 = [] := by
  have h := c10_empty_entry_blacklists_all sBlackAll "http://"
    (by decide) (by decide)
  have hb := h.2 envNoNet "![](x)" [refImgTest] 3
  exact ⟨by decide, by decide, h.1 "https://anywhere.example/pic.png",
         hb.1, hb.2.1, hb.2.2.2.2⟩
